import Mathlib

/-!
Shallow embedding of the kitties pallet (`src/pallets/kitties/src/lib.rs`).

Storage is modelled as a `Chain` record holding the pallet's four storage
items (`KittiesCount`, `Kitties`, `KittiesOwner`, `KittiesPrice`), the
balances-pallet state each account's free and reserved balance, and the list
of events deposited so far.  The host-provided currency primitives
(`reserve`, `unreserve`, `transfer`) are modelled in the simplest way that
matches their documented contract: `reserve` and `transfer` fail exactly when
the free balance is insufficient, `unreserve` never fails and releases at
most the reserved amount.

Randomness (`get_random_value`) and time (`T::Time::now()`) are host inputs,
so dispatchables take the derived 16-byte value and the current moment as
explicit arguments.  The holding deposit (`HoldingDepositForOneKitty`) is a
runtime constant and is passed as an explicit `dep` argument.

Each dispatchable returns `Option Err × Chain`: the first component is
`none` on success and `some e` when the Rust function returns `Err(e)`; the
second component is the storage as left by the function, with no host-level
rollback applied, so partial writes made before a failing step are visible.
`breed` returns `Option (Option Err × Chain)` with the outer `none` marking
the panic of the two `unwrap` calls inside `breed_kitty`.
-/

namespace Kitties

/-- Bytes of a kitty's DNA, indexed 0..15; each byte is a `u8` value. -/
def Dna : Type := Fin 16 → Nat

structure Kitty where
  dna : Dna
  birth_time : Nat

inductive Gender where
  | Male
  | Female
deriving DecidableEq

/-- `Kitty::gender`: `Male` when `dna[0]` is even, `Female` when odd. -/
def Kitty.gender (k : Kitty) : Gender :=
  if k.dna 0 % 2 = 0 then Gender.Male else Gender.Female

/-- The pallet's error enum, extended with the balances-pallet error that
`Currency::reserve` / `Currency::transfer` surface on insufficient funds. -/
inductive Err where
  | KittiesCountOverflow
  | KittyNotExists
  | NotOwnerOfKitty
  | CanNotAdoptKittyWithAnOwner
  | CanNotBreedWithSameGender
  | KittyNotForSell
  | PaymentNotEnough
  | NoNeedToBuyKittyWithoutAnOwner
  | InsufficientBalance
deriving DecidableEq

inductive Event where
  | KittyCreated (id : Nat)
  | KittyTransfered (id oldOwner newOwner : Nat)
  | KittyBorn (id id1 id2 : Nat)
  | KittyAbandoned (id : Nat)
  | KittyAdopted (id who : Nat)
  | KittyPriceSet (id price : Nat)
  | KittyPriceCleared (id : Nat)
  | KittySold (id seller buyer amount : Nat)
deriving DecidableEq

/-- The persisted state: the pallet's four storage items, account balances
(free and reserved), and the events deposited so far. -/
structure Chain where
  kittiesCount : Option Nat
  kitties : Nat → Option Kitty
  kittiesOwner : Nat → Option Nat
  kittiesPrice : Nat → Option Nat
  free : Nat → Nat
  reserved : Nat → Nat
  events : List Event

/-- Point update of a storage map. -/
def upd {α : Type} (f : Nat → α) (k : Nat) (v : α) : Nat → α :=
  fun n => if n = k then v else f n

/-- `u32::MAX`. -/
def U32MAX : Nat := 4294967295

/-- `ReservableCurrency::reserve`: fails iff the free balance is below the
requested amount, otherwise moves it from free to reserved. -/
def Currency.reserve (who amt : Nat) (s : Chain) : Option Err × Chain :=
  if amt ≤ s.free who then
    (none, { s with free := upd s.free who (s.free who - amt),
                    reserved := upd s.reserved who (s.reserved who + amt) })
  else (some Err.InsufficientBalance, s)

/-- `ReservableCurrency::unreserve`: never fails, releases at most the
currently reserved amount back to the free balance. -/
def Currency.unreserve (who amt : Nat) (s : Chain) : Chain :=
  { s with reserved := upd s.reserved who (s.reserved who - min amt (s.reserved who)),
           free := upd s.free who (s.free who + min amt (s.reserved who)) }

/-- `Currency::transfer`: fails iff the source's free balance is below the
amount, otherwise moves the amount between the free balances. -/
def Currency.transfer (src dst amt : Nat) (s : Chain) : Option Err × Chain :=
  if amt ≤ s.free src then
    (none, { s with free := upd (upd s.free src (s.free src - amt)) dst
                              (upd s.free src (s.free src - amt) dst + amt) })
  else (some Err.InsufficientBalance, s)

/-- `Pallet::deposit_event`. -/
def deposit_event (e : Event) (s : Chain) : Chain :=
  { s with events := s.events ++ [e] }

/-- `Pallet::get_next_kitty_id`: reads `KittiesCount`, fails with
`KittiesCountOverflow` when the stored count is `u32::MAX`, otherwise
returns the new id together with the new count (both `count + 1`, or `1`
when the counter is absent). -/
def get_next_kitty_id (s : Chain) : Except Err (Nat × Nat) :=
  match s.kittiesCount with
  | some count =>
      if count = U32MAX then Except.error Err.KittiesCountOverflow
      else Except.ok (count + 1, count + 1)
  | none => Except.ok (1, 1)

/-- `Pallet::create_kitty`: allocates the next id, inserts the kitty record
and persists the new count. -/
def create_kitty (dna : Dna) (now : Nat) (s : Chain) : Except Err Nat × Chain :=
  match get_next_kitty_id s with
  | Except.error e => (Except.error e, s)
  | Except.ok (id, count) =>
      (Except.ok id,
       { s with kitties := upd s.kitties id (some { dna := dna, birth_time := now }),
                kittiesCount := some count })

/-- `Pallet::ensure_owner`: `NotOwnerOfKitty` when the id has no recorded
owner, or a recorded owner different from `who`. -/
def ensure_owner (id who : Nat) (s : Chain) : Option Err :=
  match s.kittiesOwner id with
  | some kitty_owner => if who = kitty_owner then none else some Err.NotOwnerOfKitty
  | none => some Err.NotOwnerOfKitty

/-- `Pallet::transfer_kitty`: reserve the deposit from the new owner (fallible),
then unreserve the old owner's deposit and record the new owner. -/
def transfer_kitty (id owner new_owner dep : Nat) (s : Chain) : Option Err × Chain :=
  match Currency.reserve new_owner dep s with
  | (some e, s1) => (some e, s1)
  | (none, s1) =>
      (none, { Currency.unreserve owner dep s1 with
                 kittiesOwner := upd (Currency.unreserve owner dep s1).kittiesOwner id
                   (some new_owner) })

/-- `Pallet::breed_kitty`: looks both parents up with `unwrap` (the outer
`none` models the panic when a parent record is absent), rejects equal
genders, then creates the child from the byte-wise DNA mixing formula. -/
def breed_kitty (id1 id2 : Nat) (selector : Dna) (now : Nat) (s : Chain) :
    Option (Except Err Nat × Chain) :=
  match s.kitties id1, s.kitties id2 with
  | some kitty1, some kitty2 =>
      if kitty1.gender = kitty2.gender then
        some (Except.error Err.CanNotBreedWithSameGender, s)
      else
        some (create_kitty
          (fun i => (selector i &&& kitty1.dna i) ||| (selector i &&& kitty2.dna i)) now s)
  | _, _ => none

/-- Dispatchable `create`: the DNA is `get_random_value(&who)`, passed here
as the explicit `dna` argument. -/
def create (_who : Nat) (dna : Dna) (now : Nat) (s : Chain) : Option Err × Chain :=
  match create_kitty dna now s with
  | (Except.error e, s1) => (some e, s1)
  | (Except.ok id, s1) => (none, deposit_event (Event.KittyCreated id) s1)

/-- Dispatchable `transfer`: `ensure_owner` then `transfer_kitty`; note the
source deposits no event on this path. -/
def transfer (who id new_owner dep : Nat) (s : Chain) : Option Err × Chain :=
  match ensure_owner id who s with
  | some e => (some e, s)
  | none => transfer_kitty id who new_owner dep s

/-- Dispatchable `breed`: existence checks on both parents, then
`breed_kitty`; the selector is `get_random_value(&who)`, passed explicitly. -/
def breed (_who id1 id2 : Nat) (selector : Dna) (now : Nat) (s : Chain) :
    Option (Option Err × Chain) :=
  if (s.kitties id1).isSome = false then some (some Err.KittyNotExists, s)
  else if (s.kitties id2).isSome = false then some (some Err.KittyNotExists, s)
  else
    match breed_kitty id1 id2 selector now s with
    | none => none
    | some (Except.error e, s1) => some (some e, s1)
    | some (Except.ok id, s1) => some (none, deposit_event (Event.KittyBorn id id1 id2) s1)

/-- Dispatchable `abandon`: `ensure_owner`, unreserve the deposit, remove the
owner and price entries, deposit `KittyAbandoned`. -/
def abandon (who id dep : Nat) (s : Chain) : Option Err × Chain :=
  match ensure_owner id who s with
  | some e => (some e, s)
  | none =>
      (none, deposit_event (Event.KittyAbandoned id)
        { Currency.unreserve who dep s with
            kittiesOwner := upd (Currency.unreserve who dep s).kittiesOwner id none,
            kittiesPrice := upd (Currency.unreserve who dep s).kittiesPrice id none })

/-- Dispatchable `adopt`: rejects only when an owner is already recorded,
then reserves the deposit and records the caller as owner.  There is no
check that the kitty record exists. -/
def adopt (who id dep : Nat) (s : Chain) : Option Err × Chain :=
  if (s.kittiesOwner id).isSome = true then (some Err.CanNotAdoptKittyWithAnOwner, s)
  else
    match Currency.reserve who dep s with
    | (some e, s1) => (some e, s1)
    | (none, s1) =>
        (none, deposit_event (Event.KittyAdopted id who)
          { s1 with kittiesOwner := upd s1.kittiesOwner id (some who) })

/-- Dispatchable `set_price`: existence check, `ensure_owner`, then insert
the price unconditionally (no positivity check on `price`). -/
def set_price (who id price : Nat) (s : Chain) : Option Err × Chain :=
  if (s.kitties id).isSome = false then (some Err.KittyNotExists, s)
  else
    match ensure_owner id who s with
    | some e => (some e, s)
    | none =>
        (none, deposit_event (Event.KittyPriceSet id price)
          { s with kittiesPrice := upd s.kittiesPrice id (some price) })

/-- Dispatchable `clear_price`: existence check, `ensure_owner`, remove the
price entry. -/
def clear_price (who id : Nat) (s : Chain) : Option Err × Chain :=
  if (s.kitties id).isSome = false then (some Err.KittyNotExists, s)
  else
    match ensure_owner id who s with
    | some e => (some e, s)
    | none =>
        (none, deposit_event (Event.KittyPriceCleared id)
          { s with kittiesPrice := upd s.kittiesPrice id none })

/-- Dispatchable `buy`: existence, owner and price checks, payment check,
then the currency transfer of the price, `transfer_kitty`, price removal and
the `KittySold` event, which carries `payment`. -/
def buy (buyer id payment dep : Nat) (s : Chain) : Option Err × Chain :=
  if (s.kitties id).isSome = false then (some Err.KittyNotExists, s)
  else
    match s.kittiesOwner id with
    | none => (some Err.NoNeedToBuyKittyWithoutAnOwner, s)
    | some owner =>
      match s.kittiesPrice id with
      | none => (some Err.KittyNotForSell, s)
      | some price =>
        if payment < price then (some Err.PaymentNotEnough, s)
        else
          match Currency.transfer buyer owner price s with
          | (some e, s1) => (some e, s1)
          | (none, s1) =>
            match transfer_kitty id owner buyer dep s1 with
            | (some e, s2) => (some e, s2)
            | (none, s2) =>
                (none, deposit_event (Event.KittySold id owner buyer payment)
                  { s2 with kittiesPrice := upd s2.kittiesPrice id none })

/-- The genesis state: no counter, empty maps, a caller-chosen endowment of
free balances, nothing reserved, no events. -/
def genesisC (bal : Nat → Nat) : Chain :=
  { kittiesCount := none, kitties := fun _ => none, kittiesOwner := fun _ => none,
    kittiesPrice := fun _ => none, free := bal, reserved := fun _ => 0, events := [] }

/-- One public transaction, successful or failing: the post-state is
whatever storage the dispatchable left behind. -/
inductive Tx (dep : Nat) : Chain → Chain → Prop where
  | create (who : Nat) (dna : Dna) (now : Nat) (s : Chain) :
      Tx dep s (Kitties.create who dna now s).2
  | transfer (who id new_owner : Nat) (s : Chain) :
      Tx dep s (Kitties.transfer who id new_owner dep s).2
  | breed (who id1 id2 : Nat) (selector : Dna) (now : Nat) (s : Chain)
      (r : Option Err × Chain) (h : Kitties.breed who id1 id2 selector now s = some r) :
      Tx dep s r.2
  | abandon (who id : Nat) (s : Chain) :
      Tx dep s (Kitties.abandon who id dep s).2
  | adopt (who id : Nat) (s : Chain) :
      Tx dep s (Kitties.adopt who id dep s).2
  | set_price (who id price : Nat) (s : Chain) :
      Tx dep s (Kitties.set_price who id price s).2
  | clear_price (who id : Nat) (s : Chain) :
      Tx dep s (Kitties.clear_price who id s).2
  | buy (buyer id payment : Nat) (s : Chain) :
      Tx dep s (Kitties.buy buyer id payment dep s).2

/-- States reachable from a genesis state by public transactions. -/
inductive Reach (dep : Nat) : Chain → Prop where
  | genesis (bal : Nat → Nat) : Reach dep (genesisC bal)
  | step {s t : Chain} : Reach dep s → Tx dep s t → Reach dep t

/-! ### Concrete states used by the evaluation theorems -/

/-- All-zero DNA; its first byte is even, so the gender is `Male`. -/
def dna0 : Dna := fun _ => 0

/-- DNA whose first byte is odd, so the gender is `Female`. -/
def dna1 : Dna := fun i => if i.val = 0 then 1 else 0

/-- A state holding exactly one kitty (id 1, unowned, unpriced), every
account endowed with 1000 free units and nothing reserved. -/
def sOne : Chain :=
  { kittiesCount := some 1,
    kitties := upd (fun _ => none) 1 (some { dna := dna0, birth_time := 0 }),
    kittiesOwner := fun _ => none,
    kittiesPrice := fun _ => none,
    free := fun _ => 1000,
    reserved := fun _ => 0,
    events := [] }

/-! ### C1: adopt on a nonexistent kitty -/

/-- Claim C1: adopt on an asset id absent from the kitties store is supposed
to fail with `KittyNotExists` and change nothing.  Evaluating the code at a
state whose store holds only kitty 1: `adopt(caller 1, id 2)` succeeds,
records caller 1 as owner of the nonexistent id 2, and reserves the 100-unit
holding deposit from the caller. -/
theorem adopt_missing_kitty_succeeds :
    sOne.kitties 2 = none ∧
    (adopt 1 2 100 sOne).1 = none ∧
    (adopt 1 2 100 sOne).2.kittiesOwner 2 = some 1 ∧
    (adopt 1 2 100 sOne).2.reserved 1 = 100 ∧
    (adopt 1 2 100 sOne).2.free 1 = 900 :=
  ⟨rfl, rfl, rfl, rfl, rfl⟩

/-! ### C2: transfer on a nonexistent kitty -/

/-- Claim C2: transfer on an asset id absent from the kitties store is
supposed to fail with `KittyNotExists`.  Evaluating the code at a state whose
store holds only kitty 1: `transfer(caller 1, id 2, new owner 2)` fails with
`NotOwnerOfKitty` instead (the `ensure_owner` path never distinguishes a
missing asset), leaving the state unchanged. -/
theorem transfer_missing_kitty_wrong_error :
    sOne.kitties 2 = none ∧
    transfer 1 2 2 100 sOne = (some Err.NotOwnerOfKitty, sOne) :=
  ⟨rfl, rfl⟩

/-- The state `sOne` with kitty 1 adopted by account 1 (deposit 100 held). -/
def sOwned : Chain :=
  { sOne with kittiesOwner := upd sOne.kittiesOwner 1 (some 1),
              free := upd sOne.free 1 900,
              reserved := upd sOne.reserved 1 100 }

/-! ### C4: set_price accepts a zero price -/

/-- Claim C4 counterexample: the claim says a zero price is rejected, but
`set_price(owner 1, id 1, price 0)` on an existing, owned kitty succeeds and
stores the price entry `some 0`. -/
theorem set_price_zero_accepted :
    (set_price 1 1 0 sOwned).1 = none ∧
    (set_price 1 1 0 sOwned).2.kittiesPrice 1 = some 0 :=
  ⟨rfl, rfl⟩

/-- Claim C4 amended: `set_price` performs no positivity check; whenever the
asset exists and the caller passes the ownership check, any price — zero
included — is accepted and stored verbatim as the price entry. -/
theorem set_price_stores_any_price (who id price : Nat) (s : Chain)
    (hk : (s.kitties id).isSome = true) (ho : ensure_owner id who s = none) :
    (set_price who id price s).1 = none ∧
    (set_price who id price s).2.kittiesPrice id = some price := by
  unfold set_price
  rw [hk, ho]
  simp [deposit_event, upd]

/-- Witness for `set_price_stores_any_price` at a concrete owned kitty and
price 0. -/
theorem set_price_stores_any_price_witness :
    (set_price 1 1 0 sOwned).1 = none ∧
    (set_price 1 1 0 sOwned).2.kittiesPrice 1 = some 0 :=
  set_price_stores_any_price 1 1 0 sOwned rfl rfl

/-! ### C6: id allocation -/

/-- Only `KittiesCountOverflow` can come out of `create_kitty`. -/
theorem create_kitty_error_eq (dna : Dna) (now : Nat) (s : Chain) (e : Err) (s1 : Chain)
    (h : create_kitty dna now s = (Except.error e, s1)) :
    e = Err.KittiesCountOverflow ∧ s1 = s := by
  unfold create_kitty get_next_kitty_id at h
  cases hc : s.kittiesCount with
  | none => rw [hc] at h; simp at h
  | some c =>
      rw [hc] at h
      by_cases hmax : c = U32MAX
      · simp [hmax] at h
        exact ⟨h.1.symm, h.2.symm⟩
      · simp [hmax] at h

/-- Facts about a successful `create_kitty`: the returned id, the stored
count, and the stored record. -/
theorem create_kitty_ok_facts (dna : Dna) (now : Nat) (s : Chain) (id : Nat) (s1 : Chain)
    (h : create_kitty dna now s = (Except.ok id, s1)) :
    id = s.kittiesCount.getD 0 + 1 ∧
    s1.kittiesCount = some (s.kittiesCount.getD 0 + 1) ∧
    s1.kitties id = some { dna := dna, birth_time := now } := by
  unfold create_kitty get_next_kitty_id at h
  cases hc : s.kittiesCount with
  | none =>
      rw [hc] at h
      simp at h
      obtain ⟨h1, h2⟩ := h
      subst h1
      subst h2
      simp [upd]
  | some c =>
      rw [hc] at h
      by_cases hmax : c = U32MAX
      · simp [hmax] at h
      · simp [hmax] at h
        obtain ⟨h1, h2⟩ := h
        subst h1
        subst h2
        simp [upd]

/-- `create_kitty` fails exactly when the stored counter is `u32::MAX`, and
then with `KittiesCountOverflow`. -/
theorem create_kitty_overflow_iff (dna : Dna) (now : Nat) (s : Chain) :
    (create_kitty dna now s).1 = Except.error Err.KittiesCountOverflow ↔
      s.kittiesCount = some U32MAX := by
  unfold create_kitty get_next_kitty_id
  cases hc : s.kittiesCount with
  | none => simp
  | some c =>
      by_cases hmax : c = U32MAX
      · simp [hmax]
      · simp [hmax]

/-- Claim C6: a successful `create_kitty` (used by both `create` and `breed`)
returns id `prior count + 1` (`1` when the counter is absent), persists the
incremented count and inserts the new record at that id; it fails with
`KittiesCountOverflow` exactly when the stored counter is `u32::MAX`. -/
theorem create_kitty_id_and_count (dna : Dna) (now : Nat) (s : Chain) :
    ((create_kitty dna now s).1 = Except.error Err.KittiesCountOverflow ↔
      s.kittiesCount = some U32MAX) ∧
    (∀ id s1, create_kitty dna now s = (Except.ok id, s1) →
      id = s.kittiesCount.getD 0 + 1 ∧
      s1.kittiesCount = some (s.kittiesCount.getD 0 + 1) ∧
      s1.kitties id = some { dna := dna, birth_time := now }) :=
  ⟨create_kitty_overflow_iff dna now s,
   fun id s1 h => create_kitty_ok_facts dna now s id s1 h⟩

/-- Witness for `create_kitty_id_and_count` at the genesis state: the first
kitty gets id 1 and the counter becomes 1. -/
theorem create_kitty_id_and_count_witness :
    (1 : Nat) = (genesisC (fun _ => 0)).kittiesCount.getD 0 + 1 ∧
    ((create_kitty dna0 0 (genesisC (fun _ => 0))).2).kittiesCount =
      some ((genesisC (fun _ => 0)).kittiesCount.getD 0 + 1) ∧
    ((create_kitty dna0 0 (genesisC (fun _ => 0))).2).kitties 1 =
      some { dna := dna0, birth_time := 0 } :=
  (create_kitty_id_and_count dna0 0 (genesisC (fun _ => 0))).2 1
    ((create_kitty dna0 0 (genesisC (fun _ => 0))).2) rfl

/-! ### C10: the unwraps in breed_kitty are unreachable through breed -/

/-- Claim C10: `breed` never reaches the panic of the two `unwrap` calls in
`breed_kitty` (modelled by the outer `none`): the existence checks on both
parents run first and nothing removes a record in between. -/
theorem breed_never_panics (who id1 id2 : Nat) (sel : Dna) (now : Nat) (s : Chain) :
    (breed who id1 id2 sel now s).isSome = true := by
  unfold breed
  by_cases h1 : (s.kitties id1).isSome = false
  · simp [h1]
  · by_cases h2 : (s.kitties id2).isSome = false
    · simp [h1, h2]
    · obtain ⟨k1, hk1⟩ := Option.isSome_iff_exists.mp (by
        cases hx : (s.kitties id1).isSome with
        | true => rfl
        | false => exact absurd hx h1)
      obtain ⟨k2, hk2⟩ := Option.isSome_iff_exists.mp (by
        cases hx : (s.kitties id2).isSome with
        | true => rfl
        | false => exact absurd hx h2)
      rw [if_neg h1, if_neg h2]
      unfold breed_kitty
      rw [hk1, hk2]
      dsimp only
      by_cases hg : k1.gender = k2.gender
      · simp [hg]
      · rw [if_neg hg]
        rcases hck : create_kitty (fun i =>
            (sel i &&& k1.dna i) ||| (sel i &&& k2.dna i)) now s
          with ⟨r, s1⟩
        cases r <;> simp

/-! ### C8: same-gender breeding -/

/-- A state with kitty 1 (`dna0`, Male) and kitty 2 (`dna1`, Female), no
owners, everyone endowed with 1000 free units. -/
def sTwo : Chain :=
  { kittiesCount := some 2,
    kitties := upd (upd (fun _ => none) 1 (some { dna := dna0, birth_time := 0 })) 2
      (some { dna := dna1, birth_time := 0 }),
    kittiesOwner := fun _ => none,
    kittiesPrice := fun _ => none,
    free := fun _ => 1000,
    reserved := fun _ => 0,
    events := [] }

/-- Claim C8: given that both parents exist, `breed` fails with
`CanNotBreedWithSameGender` if and only if the parents' genders (parity of
`dna[0]`) are equal. -/
theorem breed_same_gender_iff (who id1 id2 : Nat) (sel : Dna) (now : Nat) (s : Chain)
    (k1 k2 : Kitty) (h1 : s.kitties id1 = some k1) (h2 : s.kitties id2 = some k2) :
    (∃ s1, breed who id1 id2 sel now s = some (some Err.CanNotBreedWithSameGender, s1)) ↔
      k1.gender = k2.gender := by
  unfold breed breed_kitty
  rw [h1, h2]
  dsimp only
  rw [if_neg (by simp), if_neg (by simp)]
  by_cases hg : k1.gender = k2.gender
  · rw [if_pos hg]
    dsimp only
    exact ⟨fun _ => hg, fun _ => ⟨s, rfl⟩⟩
  · rw [if_neg hg]
    rcases hck : create_kitty (fun i =>
        (sel i &&& k1.dna i) ||| (sel i &&& k2.dna i)) now s
      with ⟨r, s1⟩
    cases r with
    | error e =>
        have he := (create_kitty_error_eq _ _ _ _ _ hck).1
        dsimp only
        constructor
        · rintro ⟨s2, hs2⟩
          rw [he] at hs2
          simp at hs2
        · intro h
          exact absurd h hg
    | ok idn =>
        dsimp only
        constructor
        · rintro ⟨s2, hs2⟩
          simp at hs2
        · intro h
          exact absurd h hg

/-- Witness for `breed_same_gender_iff`: at `sTwo` the parents have
different genders, so no same-gender failure is possible. -/
theorem breed_same_gender_iff_witness :
    (∃ s1, breed 1 1 2 dna0 0 sTwo = some (some Err.CanNotBreedWithSameGender, s1)) ↔
      Kitty.gender { dna := dna0, birth_time := 0 } =
        Kitty.gender { dna := dna1, birth_time := 0 } :=
  breed_same_gender_iff 1 1 2 dna0 0 sTwo
    { dna := dna0, birth_time := 0 } { dna := dna1, birth_time := 0 } rfl rfl

/-! ### C7: breeding DNA formula and ownership of the child -/

/-- Mixed DNA bytes stay inside the bitwise OR of the parents' bytes: the
conjunction with the 8-bit complement of the OR is zero. -/
theorem mix_masked (a b c : Nat) (hb : b < 256) (hc : c < 256) :
    ((a &&& b) ||| (a &&& c)) &&& (255 ^^^ (b ||| c)) = 0 := by
  apply Nat.eq_of_testBit_eq
  intro j
  simp only [Nat.testBit_land, Nat.testBit_lor, Nat.testBit_xor, Nat.zero_testBit]
  rcases lt_or_ge j 8 with hj | hj
  · have h255 : Nat.testBit 255 j = true := by
      have h2 : (255 : Nat) = 2 ^ 8 - 1 := by norm_num
      rw [h2, Nat.testBit_two_pow_sub_one]
      simpa using hj
    rw [h255]
    cases ha : a.testBit j <;> cases hbb : b.testBit j <;> cases hcc : c.testBit j <;> simp
  · have h28 : (256 : ℕ) = 2 ^ 8 := by norm_num
    have hbj : b.testBit j = false :=
      Nat.testBit_lt_two_pow (lt_of_lt_of_le (h28 ▸ hb) (Nat.pow_le_pow_right (by norm_num) hj))
    have hcj : c.testBit j = false :=
      Nat.testBit_lt_two_pow (lt_of_lt_of_le (h28 ▸ hc) (Nat.pow_le_pow_right (by norm_num) hj))
    rw [hbj, hcj]
    simp

/-- All fields of the state other than `kitties` and `kittiesCount` are
untouched by `create_kitty`. -/
theorem create_kitty_other_fields (dna : Dna) (now : Nat) (s : Chain) :
    (create_kitty dna now s).2.kittiesOwner = s.kittiesOwner ∧
    (create_kitty dna now s).2.kittiesPrice = s.kittiesPrice ∧
    (create_kitty dna now s).2.free = s.free ∧
    (create_kitty dna now s).2.reserved = s.reserved ∧
    (create_kitty dna now s).2.events = s.events := by
  unfold create_kitty get_next_kitty_id
  rcases hc : s.kittiesCount with _ | c
  · simp
  · by_cases hmax : c = U32MAX <;> simp [hmax]

/-- Claim C7 amended: a successful `breed` stores, at id `prior count + 1`, a
kitty whose DNA at each byte is `(sel[i] & dna1[i]) | (sel[i] & dna2[i])`
(hence, for genuine u8 bytes, inside the OR of the parents' bytes), and it
leaves the whole owner map unchanged — so the child is unowned exactly when
no owner entry was already recorded at its id. -/
theorem breed_dna_formula_owner_unchanged
    (who id1 id2 : Nat) (sel : Dna) (now : Nat) (s s1 : Chain) (k1 k2 : Kitty)
    (h1 : s.kitties id1 = some k1) (h2 : s.kitties id2 = some k2)
    (hb : breed who id1 id2 sel now s = some (none, s1)) :
    s1.kittiesOwner = s.kittiesOwner ∧
    ∃ k, s1.kitties (s.kittiesCount.getD 0 + 1) = some k ∧
      (∀ i, k.dna i = (sel i &&& k1.dna i) ||| (sel i &&& k2.dna i)) ∧
      ((∀ i, k1.dna i < 256) → (∀ i, k2.dna i < 256) →
        ∀ i, k.dna i &&& (255 ^^^ (k1.dna i ||| k2.dna i)) = 0) := by
  unfold breed breed_kitty at hb
  rw [h1, h2] at hb
  dsimp only at hb
  rw [if_neg (by simp), if_neg (by simp)] at hb
  by_cases hg : k1.gender = k2.gender
  · rw [if_pos hg] at hb
    simp at hb
  · rw [if_neg hg] at hb
    rcases hck : create_kitty (fun i =>
        (sel i &&& k1.dna i) ||| (sel i &&& k2.dna i)) now s
      with ⟨r, s2⟩
    rw [hck] at hb
    cases r with
    | error e => simp at hb
    | ok idn =>
        dsimp only at hb
        have hb3 : deposit_event (Event.KittyBorn idn id1 id2) s2 = s1 :=
          congrArg Prod.snd (Option.some.inj hb)
        obtain ⟨hid, hcount, hkit⟩ := create_kitty_ok_facts (fun i =>
            (sel i &&& k1.dna i) ||| (sel i &&& k2.dna i)) now s
          idn s2 hck
        have hof := create_kitty_other_fields (fun i =>
            (sel i &&& k1.dna i) ||| (sel i &&& k2.dna i)) now s
        rw [hck] at hof
        subst hb3
        constructor
        · exact hof.1
        · refine ⟨{ dna := (fun i => (sel i &&& k1.dna i) ||| (sel i &&& k2.dna i)),
                    birth_time := now }, ?_, ?_, ?_⟩
          · rw [← hid]
            exact hkit
          · intro i
            rfl
          · intro hbnd1 hbnd2 i
            exact mix_masked (sel i) (k1.dna i) (k2.dna i) (hbnd1 i) (hbnd2 i)

/-- `sTwo` after account 2 adopts the not-yet-existing id 3 (which `adopt`
permits, as it never checks the kitties store). -/
def c7mid : Chain := (adopt 2 3 100 sTwo).2

/-- Result of a subsequent successful breed of kitties 1 and 2, whose child
receives the pre-adopted id 3. -/
def c7res : Option Err × Chain :=
  (breed 1 1 2 dna0 0 c7mid).getD (some Err.KittyNotExists, c7mid)

/-- Claim C7 counterexample: after account 2 pre-adopts id 3, breeding
kitties 1 and 2 succeeds, creates the child at id 3 — and that child is born
with owner 2, not with no owner. -/
theorem breed_child_born_with_owner :
    c7mid.kitties 3 = none ∧
    breed 1 1 2 dna0 0 c7mid = some (none, c7res.2) ∧
    (c7res.2.kitties 3).isSome = true ∧
    c7res.2.kittiesOwner 3 = some 2 :=
  ⟨rfl, rfl, rfl, rfl⟩

/-- Post-state of a clean successful breed on `sTwo`. -/
def w7post : Chain :=
  ((breed 9 1 2 dna0 5 sTwo).getD (some Err.KittyNotExists, sTwo)).2

/-- Witness for `breed_dna_formula_owner_unchanged` on the clean state
`sTwo`. -/
theorem breed_dna_formula_owner_unchanged_witness :
    w7post.kittiesOwner = sTwo.kittiesOwner ∧
    ∃ k, w7post.kitties (sTwo.kittiesCount.getD 0 + 1) = some k ∧
      (∀ i, k.dna i = (dna0 i &&& dna0 i) ||| (dna0 i &&& dna1 i)) ∧
      ((∀ i, dna0 i < 256) → (∀ i, dna1 i < 256) →
        ∀ i, k.dna i &&& (255 ^^^ (dna0 i ||| dna1 i)) = 0) :=
  breed_dna_formula_owner_unchanged 9 1 2 dna0 5 sTwo w7post
    { dna := dna0, birth_time := 0 } { dna := dna1, birth_time := 0 } rfl rfl rfl

/-! ### C3: the buy scenario -/

/-- Genesis with every account endowed with 1000 free units. -/
def g1000 : Chain := genesisC (fun _ => 1000)

/-- Account 1 creates kitty 1. -/
def c3s1 : Chain := (create 1 dna0 0 g1000).2

/-- Account 1 adopts kitty 1 (deposit 100 reserved). -/
def c3s2 : Chain := (adopt 1 1 100 c3s1).2

/-- Account 1 lists kitty 1 at price 200. -/
def c3s3 : Chain := (set_price 1 1 200 c3s2).2

/-- Account 2 buys kitty 1 with payment 250. -/
def c3res : Option Err × Chain := buy 2 1 250 100 c3s3

/-- Claim C3 counterexample: in the spec's scenario the `KittySold` event is
supposed to carry the price 200, but the code deposits
`KittySold(1, 1, 2, 250)` — the payment — and no event carrying 200 exists. -/
theorem buy_event_carries_payment_not_price :
    c3res.1 = none ∧
    c3res.2.events.getLast? = some (Event.KittySold 1 1 2 250) ∧
    Event.KittySold 1 1 2 200 ∉ c3res.2.events := by
  refine ⟨rfl, rfl, ?_⟩
  decide

/-- Claim C3 amended: the buy succeeds, exactly the price 200 is transferred
to the previous owner (whose free balance goes from 900 to 1200: +200 price
+100 released deposit), ownership and the deposit reservation move to the
buyer, the price entry is cleared, and the `KittySold` event carries the
payment 250. -/
theorem buy_scenario_facts :
    c3res.1 = none ∧
    c3s3.free 1 = 900 ∧ c3s3.reserved 1 = 100 ∧ c3s3.free 2 = 1000 ∧
    c3s3.kittiesPrice 1 = some 200 ∧
    c3res.2.kittiesOwner 1 = some 2 ∧
    c3res.2.kittiesPrice 1 = none ∧
    c3res.2.free 1 = 1200 ∧
    c3res.2.reserved 1 = 0 ∧
    c3res.2.free 2 = 700 ∧
    c3res.2.reserved 2 = 100 ∧
    c3res.2.events.getLast? = some (Event.KittySold 1 1 2 250) :=
  ⟨rfl, rfl, rfl, rfl, rfl, rfl, rfl, rfl, rfl, rfl, rfl, rfl⟩

/-! ### C5: atomicity on failure -/

/-- A failing `Currency.reserve` leaves the state unchanged. -/
theorem reserve_err (who amt : Nat) (s : Chain) (e : Err) (s1 : Chain)
    (h : Currency.reserve who amt s = (some e, s1)) : s1 = s := by
  unfold Currency.reserve at h
  by_cases hle : amt ≤ s.free who
  · rw [if_pos hle] at h
    simp at h
  · rw [if_neg hle] at h
    exact (congrArg Prod.snd h).symm

/-- A failing `Currency.transfer` leaves the state unchanged. -/
theorem transferC_err (src dst amt : Nat) (s : Chain) (e : Err) (s1 : Chain)
    (h : Currency.transfer src dst amt s = (some e, s1)) : s1 = s := by
  unfold Currency.transfer at h
  by_cases hle : amt ≤ s.free src
  · rw [if_pos hle] at h
    simp at h
  · rw [if_neg hle] at h
    exact (congrArg Prod.snd h).symm

/-- A successful `Currency.transfer` required a sufficient free balance. -/
theorem transferC_ok (src dst amt : Nat) (s : Chain) (s1 : Chain)
    (h : Currency.transfer src dst amt s = (none, s1)) : amt ≤ s.free src := by
  unfold Currency.transfer at h
  by_cases hle : amt ≤ s.free src
  · exact hle
  · rw [if_neg hle] at h
    simp at h

/-- A failing `transfer_kitty` leaves the state unchanged (its only fallible
step, the deposit reserve, comes first). -/
theorem transfer_kitty_err (id owner new_owner dep : Nat) (s : Chain) (e : Err) (s1 : Chain)
    (h : transfer_kitty id owner new_owner dep s = (some e, s1)) : s1 = s := by
  unfold transfer_kitty at h
  rcases hr : Currency.reserve new_owner dep s with ⟨oe, s2⟩
  rw [hr] at h
  cases oe with
  | some e2 =>
      have h2 : s2 = s1 := congrArg Prod.snd h
      have h3 : s2 = s := reserve_err new_owner dep s e2 s2 hr
      rw [← h2, h3]
  | none => simp at h

/-- Claim C5 amended: on any error, `create`, `transfer`, `breed`, `abandon`,
`adopt`, `set_price` and `clear_price` leave the state exactly as it was; a
failing `buy` also leaves the state unchanged except in one case — when the
currency transfer of the price succeeded and reserving the buyer's deposit
then failed, the post-state is the pre-state with the price moved from buyer
to owner (and nothing else changed). -/
theorem atomic_on_error_except_buy :
    (∀ who dna now s e s1, create who dna now s = (some e, s1) → s1 = s) ∧
    (∀ who id new_owner dep s e s1,
      transfer who id new_owner dep s = (some e, s1) → s1 = s) ∧
    (∀ who id1 id2 sel now s e s1,
      breed who id1 id2 sel now s = some (some e, s1) → s1 = s) ∧
    (∀ who id dep s e s1, abandon who id dep s = (some e, s1) → s1 = s) ∧
    (∀ who id dep s e s1, adopt who id dep s = (some e, s1) → s1 = s) ∧
    (∀ who id price s e s1, set_price who id price s = (some e, s1) → s1 = s) ∧
    (∀ who id s e s1, clear_price who id s = (some e, s1) → s1 = s) ∧
    (∀ buyer id payment dep s e s1, buy buyer id payment dep s = (some e, s1) →
      s1 = s ∨ ∃ ow pr, s.kittiesOwner id = some ow ∧ s.kittiesPrice id = some pr ∧
        pr ≤ payment ∧ pr ≤ s.free buyer ∧ s1 = (Currency.transfer buyer ow pr s).2) := by
  refine ⟨?_, ?_, ?_, ?_, ?_, ?_, ?_, ?_⟩
  · intro who dna now s e s1 h
    unfold create at h
    rcases hck : create_kitty dna now s with ⟨r, s2⟩
    rw [hck] at h
    cases r with
    | error e2 =>
        have h2 : s2 = s1 := congrArg Prod.snd h
        rw [← h2]
        exact (create_kitty_error_eq dna now s e2 s2 hck).2
    | ok idn => simp at h
  · intro who id new_owner dep s e s1 h
    unfold transfer at h
    rcases ho : ensure_owner id who s with _ | e2
    · rw [ho] at h
      exact transfer_kitty_err id who new_owner dep s e s1 h
    · rw [ho] at h
      exact (congrArg Prod.snd h).symm
  · intro who id1 id2 sel now s e s1 h
    unfold breed at h
    by_cases h1 : (s.kitties id1).isSome = false
    · rw [if_pos h1] at h
      simpa using (congrArg (fun o => Option.map Prod.snd o) h).symm
    · rw [if_neg h1] at h
      by_cases h2 : (s.kitties id2).isSome = false
      · rw [if_pos h2] at h
        simpa using (congrArg (fun o => Option.map Prod.snd o) h).symm
      · rw [if_neg h2] at h
        obtain ⟨k1, hk1⟩ := Option.isSome_iff_exists.mp (by
          cases hx : (s.kitties id1).isSome with
          | true => rfl
          | false => exact absurd hx h1)
        obtain ⟨k2, hk2⟩ := Option.isSome_iff_exists.mp (by
          cases hx : (s.kitties id2).isSome with
          | true => rfl
          | false => exact absurd hx h2)
        unfold breed_kitty at h
        rw [hk1, hk2] at h
        dsimp only at h
        by_cases hg : k1.gender = k2.gender
        · rw [if_pos hg] at h
          simpa using (congrArg (fun o => Option.map Prod.snd o) h).symm
        · rw [if_neg hg] at h
          rcases hck : create_kitty (fun i =>
              (sel i &&& k1.dna i) ||| (sel i &&& k2.dna i)) now s with ⟨r, s2⟩
          rw [hck] at h
          cases r with
          | error e2 =>
              have h2 : s2 = s1 := by simpa using congrArg (fun o => Option.map Prod.snd o) h
              rw [← h2]
              exact (create_kitty_error_eq _ now s e2 s2 hck).2
          | ok idn => simp at h
  · intro who id dep s e s1 h
    unfold abandon at h
    rcases ho : ensure_owner id who s with _ | e2
    · rw [ho] at h
      simp at h
    · rw [ho] at h
      exact (congrArg Prod.snd h).symm
  · intro who id dep s e s1 h
    unfold adopt at h
    by_cases hw : (s.kittiesOwner id).isSome = true
    · rw [if_pos hw] at h
      exact (congrArg Prod.snd h).symm
    · rw [if_neg hw] at h
      rcases hr : Currency.reserve who dep s with ⟨oe, s2⟩
      rw [hr] at h
      cases oe with
      | some e2 =>
          have h2 : s2 = s1 := congrArg Prod.snd h
          rw [← h2]
          exact reserve_err who dep s e2 s2 hr
      | none => simp at h
  · intro who id price s e s1 h
    unfold set_price at h
    by_cases hk : (s.kitties id).isSome = false
    · rw [if_pos hk] at h
      exact (congrArg Prod.snd h).symm
    · rw [if_neg hk] at h
      rcases ho : ensure_owner id who s with _ | e2
      · rw [ho] at h
        simp at h
      · rw [ho] at h
        exact (congrArg Prod.snd h).symm
  · intro who id s e s1 h
    unfold clear_price at h
    by_cases hk : (s.kitties id).isSome = false
    · rw [if_pos hk] at h
      exact (congrArg Prod.snd h).symm
    · rw [if_neg hk] at h
      rcases ho : ensure_owner id who s with _ | e2
      · rw [ho] at h
        simp at h
      · rw [ho] at h
        exact (congrArg Prod.snd h).symm
  · intro buyer id payment dep s e s1 h
    unfold buy at h
    by_cases hk : (s.kitties id).isSome = false
    · rw [if_pos hk] at h
      exact Or.inl (congrArg Prod.snd h).symm
    · rw [if_neg hk] at h
      rcases how : s.kittiesOwner id with _ | ow
      · rw [how] at h
        exact Or.inl (congrArg Prod.snd h).symm
      · rw [how] at h
        dsimp only at h
        rcases hpr : s.kittiesPrice id with _ | pr
        · rw [hpr] at h
          exact Or.inl (congrArg Prod.snd h).symm
        · rw [hpr] at h
          dsimp only at h
          by_cases hpay : payment < pr
          · rw [if_pos hpay] at h
            exact Or.inl (congrArg Prod.snd h).symm
          · rw [if_neg hpay] at h
            rcases htr : Currency.transfer buyer ow pr s with ⟨oe, s2⟩
            rw [htr] at h
            cases oe with
            | some e2 =>
                have h2 : s2 = s1 := congrArg Prod.snd h
                rw [← h2]
                exact Or.inl (transferC_err buyer ow pr s e2 s2 htr)
            | none =>
                dsimp only at h
                rcases htk : transfer_kitty id ow buyer dep s2 with ⟨oe2, s3⟩
                rw [htk] at h
                cases oe2 with
                | some e3 =>
                    refine Or.inr ⟨ow, pr, rfl, rfl, Nat.le_of_not_lt hpay,
                      transferC_ok buyer ow pr s s2 htr, ?_⟩
                    have h3 : s3 = s1 := congrArg Prod.snd h
                    have h4 : s3 = s2 := transfer_kitty_err id ow buyer dep s2 e3 s3 htk
                    have h5 : s2 = (Currency.transfer buyer ow pr s).2 :=
                      (congrArg Prod.snd htr).symm
                    rw [← h3, h4, h5]
                | none => simp at h

/-- Witness for `atomic_on_error_except_buy`: `adopt` by a second account on
the already-owned kitty 1 fails and leaves `sOwned` unchanged. -/
theorem atomic_on_error_except_buy_witness :
    (adopt 2 1 100 sOwned).2 = sOwned :=
  atomic_on_error_except_buy.2.2.2.2.1 2 1 100 sOwned
    Err.CanNotAdoptKittyWithAnOwner (adopt 2 1 100 sOwned).2 rfl

/-- A state where kitty 1 is owned by account 1 and priced at 200, and the
prospective buyer (account 2) has 250 free — enough for the price but not
for the price plus the 100-unit holding deposit. -/
def sBuyer : Chain :=
  { kittiesCount := some 1,
    kitties := upd (fun _ => none) 1 (some { dna := dna0, birth_time := 0 }),
    kittiesOwner := upd (fun _ => none) 1 (some 1),
    kittiesPrice := upd (fun _ => none) 1 (some 200),
    free := fun a => if a = 2 then 250 else 0,
    reserved := fun _ => 0,
    events := [] }

/-- Claim C5 counterexample: this `buy` returns an error, yet the buyer has
already paid the 200-unit price to the owner — the currency movement is not
rolled back by the pallet, and the buyer receives nothing (ownership is
unchanged). -/
theorem buy_error_moves_money :
    (buy 2 1 250 100 sBuyer).1 = some Err.InsufficientBalance ∧
    sBuyer.free 2 = 250 ∧ (buy 2 1 250 100 sBuyer).2.free 2 = 50 ∧
    sBuyer.free 1 = 0 ∧ (buy 2 1 250 100 sBuyer).2.free 1 = 200 ∧
    (buy 2 1 250 100 sBuyer).2.kittiesOwner 1 = some 1 ∧
    (buy 2 1 250 100 sBuyer).2.kittiesPrice 1 = some 200 :=
  ⟨rfl, rfl, rfl, rfl, rfl, rfl, rfl⟩

/-! ### C9: a price entry exists only under an owner entry -/

/-- An asset id carries a price entry only if it carries an owner entry. -/
def PriceImpliesOwner (s : Chain) : Prop :=
  ∀ id, (s.kittiesPrice id).isSome = true → (s.kittiesOwner id).isSome = true

theorem pio_of_maps_eq {s t : Chain} (hp : t.kittiesPrice = s.kittiesPrice)
    (hw : t.kittiesOwner = s.kittiesOwner) (h : PriceImpliesOwner s) :
    PriceImpliesOwner t := by
  intro id hpi
  rw [hw]
  exact h id (hp ▸ hpi)

/-- `Currency.reserve` never touches the price or owner maps. -/
theorem reserve_snd_maps (w a : Nat) (s : Chain) :
    (Currency.reserve w a s).2.kittiesPrice = s.kittiesPrice ∧
    (Currency.reserve w a s).2.kittiesOwner = s.kittiesOwner := by
  unfold Currency.reserve
  by_cases h : a ≤ s.free w <;> simp [h]

/-- `Currency.transfer` never touches the price or owner maps. -/
theorem transferC_snd_maps (x y a : Nat) (s : Chain) :
    (Currency.transfer x y a s).2.kittiesPrice = s.kittiesPrice ∧
    (Currency.transfer x y a s).2.kittiesOwner = s.kittiesOwner := by
  unfold Currency.transfer
  by_cases h : a ≤ s.free x <;> simp [h]

/-- A successful `transfer_kitty` leaves the price map alone and updates the
owner map exactly at `id`. -/
theorem transfer_kitty_ok_maps (id owner new_owner dep : Nat) (s s1 : Chain)
    (h : transfer_kitty id owner new_owner dep s = (none, s1)) :
    s1.kittiesPrice = s.kittiesPrice ∧
    s1.kittiesOwner = upd s.kittiesOwner id (some new_owner) := by
  unfold transfer_kitty at h
  rcases hr : Currency.reserve new_owner dep s with ⟨oe, s2⟩
  rw [hr] at h
  have hm := reserve_snd_maps new_owner dep s
  rw [hr] at hm
  cases oe with
  | some e => simp at h
  | none =>
      dsimp only at h
      have h2 := congrArg Prod.snd h
      dsimp only at h2
      rw [← h2]
      refine ⟨hm.1, ?_⟩
      exact congrArg (fun f => upd f id (some new_owner)) hm.2

theorem pio_transfer_kitty (id owner new_owner dep : Nat) (s : Chain)
    (h : PriceImpliesOwner s) :
    PriceImpliesOwner (transfer_kitty id owner new_owner dep s).2 := by
  rcases htk : transfer_kitty id owner new_owner dep s with ⟨oe, s1⟩
  cases oe with
  | some e =>
      have := transfer_kitty_err id owner new_owner dep s e s1 htk
      dsimp only
      rw [this]
      exact h
  | none =>
      obtain ⟨hp, hw⟩ := transfer_kitty_ok_maps id owner new_owner dep s s1 htk
      dsimp only
      intro k hpk
      rw [hw]
      dsimp only [upd]
      by_cases hk : k = id
      · rw [if_pos hk]
        rfl
      · rw [if_neg hk]
        exact h k (by rw [← hp]; exact hpk)

theorem pio_create (who : Nat) (dna : Dna) (now : Nat) (s : Chain)
    (h : PriceImpliesOwner s) : PriceImpliesOwner (create who dna now s).2 := by
  unfold create
  rcases hck : create_kitty dna now s with ⟨r, s2⟩
  have hof := create_kitty_other_fields dna now s
  rw [hck] at hof
  have hp : s2.kittiesPrice = s.kittiesPrice := hof.2.1
  have hw : s2.kittiesOwner = s.kittiesOwner := hof.1
  cases r with
  | error e => exact pio_of_maps_eq hp hw h
  | ok idn => exact pio_of_maps_eq hp hw h

theorem pio_transfer (who id new_owner dep : Nat) (s : Chain)
    (h : PriceImpliesOwner s) : PriceImpliesOwner (transfer who id new_owner dep s).2 := by
  unfold transfer
  rcases ho : ensure_owner id who s with _ | e
  · exact pio_transfer_kitty id who new_owner dep s h
  · exact h

theorem pio_breed (who id1 id2 : Nat) (sel : Dna) (now : Nat) (s : Chain)
    (r : Option Err × Chain) (hb : breed who id1 id2 sel now s = some r)
    (h : PriceImpliesOwner s) : PriceImpliesOwner r.2 := by
  unfold breed at hb
  by_cases h1 : (s.kitties id1).isSome = false
  · rw [if_pos h1] at hb
    obtain rfl := Option.some.inj hb
    exact h
  · rw [if_neg h1] at hb
    by_cases h2 : (s.kitties id2).isSome = false
    · rw [if_pos h2] at hb
      obtain rfl := Option.some.inj hb
      exact h
    · rw [if_neg h2] at hb
      obtain ⟨k1, hk1⟩ := Option.isSome_iff_exists.mp (by
        cases hx : (s.kitties id1).isSome with
        | true => rfl
        | false => exact absurd hx h1)
      obtain ⟨k2, hk2⟩ := Option.isSome_iff_exists.mp (by
        cases hx : (s.kitties id2).isSome with
        | true => rfl
        | false => exact absurd hx h2)
      unfold breed_kitty at hb
      rw [hk1, hk2] at hb
      dsimp only at hb
      by_cases hg : k1.gender = k2.gender
      · rw [if_pos hg] at hb
        obtain rfl := Option.some.inj hb
        exact h
      · rw [if_neg hg] at hb
        rcases hck : create_kitty (fun i =>
            (sel i &&& k1.dna i) ||| (sel i &&& k2.dna i)) now s with ⟨r2, s2⟩
        rw [hck] at hb
        have hof := create_kitty_other_fields (fun i =>
            (sel i &&& k1.dna i) ||| (sel i &&& k2.dna i)) now s
        rw [hck] at hof
        have hp : s2.kittiesPrice = s.kittiesPrice := hof.2.1
        have hw : s2.kittiesOwner = s.kittiesOwner := hof.1
        cases r2 with
        | error e =>
            obtain rfl := Option.some.inj hb
            exact pio_of_maps_eq hp hw h
        | ok idn =>
            obtain rfl := Option.some.inj hb
            exact pio_of_maps_eq hp hw h

theorem pio_abandon (who id dep : Nat) (s : Chain)
    (h : PriceImpliesOwner s) : PriceImpliesOwner (abandon who id dep s).2 := by
  unfold abandon
  rcases ho : ensure_owner id who s with _ | e
  · dsimp only
    intro k hpk
    dsimp only [deposit_event, upd] at hpk ⊢
    by_cases hk : k = id
    · rw [if_pos hk] at hpk
      simp at hpk
    · rw [if_neg hk] at hpk ⊢
      exact h k hpk
  · exact h

theorem pio_adopt (who id dep : Nat) (s : Chain)
    (h : PriceImpliesOwner s) : PriceImpliesOwner (adopt who id dep s).2 := by
  unfold adopt
  by_cases hw : (s.kittiesOwner id).isSome = true
  · rw [if_pos hw]
    exact h
  · rw [if_neg hw]
    rcases hr : Currency.reserve who dep s with ⟨oe, s2⟩
    have hm := reserve_snd_maps who dep s
    rw [hr] at hm
    cases oe with
    | some e => exact pio_of_maps_eq hm.1 hm.2 h
    | none =>
        dsimp only
        intro k hpk
        dsimp only [deposit_event, upd] at hpk ⊢
        by_cases hk : k = id
        · rw [if_pos hk]
          rfl
        · rw [if_neg hk]
          rw [congrFun hm.2 k]
          exact h k (by rw [← congrFun hm.1 k]; exact hpk)

/-- When `ensure_owner` succeeds there is an owner entry. -/
theorem ensure_owner_some (id who : Nat) (s : Chain)
    (h : ensure_owner id who s = none) : (s.kittiesOwner id).isSome = true := by
  unfold ensure_owner at h
  rcases hw : s.kittiesOwner id with _ | o
  · rw [hw] at h
    simp at h
  · rfl

theorem pio_set_price (who id price : Nat) (s : Chain)
    (h : PriceImpliesOwner s) : PriceImpliesOwner (set_price who id price s).2 := by
  unfold set_price
  by_cases hk : (s.kitties id).isSome = false
  · rw [if_pos hk]
    exact h
  · rw [if_neg hk]
    rcases ho : ensure_owner id who s with _ | e
    · dsimp only
      intro k hpk
      by_cases hkk : k = id
      · subst hkk
        exact ensure_owner_some k who s ho
      · dsimp only [deposit_event, upd] at hpk
        rw [if_neg hkk] at hpk
        exact h k hpk
    · exact h

theorem pio_clear_price (who id : Nat) (s : Chain)
    (h : PriceImpliesOwner s) : PriceImpliesOwner (clear_price who id s).2 := by
  unfold clear_price
  by_cases hk : (s.kitties id).isSome = false
  · rw [if_pos hk]
    exact h
  · rw [if_neg hk]
    rcases ho : ensure_owner id who s with _ | e
    · dsimp only
      intro k hpk
      dsimp only [deposit_event, upd] at hpk
      by_cases hkk : k = id
      · rw [if_pos hkk] at hpk
        simp at hpk
      · rw [if_neg hkk] at hpk
        exact h k hpk
    · exact h

theorem pio_buy (buyer id payment dep : Nat) (s : Chain)
    (h : PriceImpliesOwner s) : PriceImpliesOwner (buy buyer id payment dep s).2 := by
  unfold buy
  by_cases hk : (s.kitties id).isSome = false
  · rw [if_pos hk]
    exact h
  · rw [if_neg hk]
    rcases how : s.kittiesOwner id with _ | ow
    · exact h
    · dsimp only
      rcases hpr : s.kittiesPrice id with _ | pr
      · exact h
      · dsimp only
        by_cases hpay : payment < pr
        · rw [if_pos hpay]
          exact h
        · rw [if_neg hpay]
          rcases htr : Currency.transfer buyer ow pr s with ⟨oe, s2⟩
          have hm := transferC_snd_maps buyer ow pr s
          rw [htr] at hm
          cases oe with
          | some e => exact pio_of_maps_eq hm.1 hm.2 h
          | none =>
              dsimp only
              rcases htk : transfer_kitty id ow buyer dep s2 with ⟨oe2, s3⟩
              cases oe2 with
              | some e2 =>
                  dsimp only
                  have h3 : s3 = s2 := transfer_kitty_err id ow buyer dep s2 e2 s3 htk
                  rw [h3]
                  exact pio_of_maps_eq hm.1 hm.2 h
              | none =>
                  dsimp only
                  obtain ⟨hp3, hw3⟩ := transfer_kitty_ok_maps id ow buyer dep s2 s3 htk
                  intro k hpk
                  dsimp only [deposit_event, upd] at hpk ⊢
                  by_cases hkk : k = id
                  · rw [if_pos hkk] at hpk
                    simp at hpk
                  · rw [if_neg hkk] at hpk
                    rw [hw3]
                    dsimp only [upd]
                    rw [if_neg hkk]
                    rw [congrFun hm.2 k]
                    apply h
                    rw [← congrFun hm.1 k, ← congrFun hp3 k]
                    exact hpk

/-- Every public transaction preserves the price-implies-owner invariant. -/
theorem tx_preserves_pio {dep : Nat} {s t : Chain} (htx : Tx dep s t)
    (h : PriceImpliesOwner s) : PriceImpliesOwner t := by
  revert h
  cases htx with
  | create who dna now s => exact pio_create who dna now s
  | transfer who id new_owner s => exact pio_transfer who id new_owner dep s
  | breed who id1 id2 selector now s r hb => exact pio_breed who id1 id2 selector now s r hb
  | abandon who id s => exact pio_abandon who id dep s
  | adopt who id s => exact pio_adopt who id dep s
  | set_price who id price s => exact pio_set_price who id price s
  | clear_price who id s => exact pio_clear_price who id s
  | buy buyer id payment s => exact pio_buy buyer id payment dep s

/-- Claim C9: in every state reachable from a genesis state, an id has a
price entry only if it has an owner entry; and a successful `abandon`
removes both the owner entry and the price entry in the same operation. -/
theorem price_entry_needs_owner :
    (∀ dep s, Reach dep s → PriceImpliesOwner s) ∧
    (∀ who id dep s s1, abandon who id dep s = (none, s1) →
      s1.kittiesOwner id = none ∧ s1.kittiesPrice id = none) := by
  constructor
  · intro dep s hr
    induction hr with
    | genesis bal =>
        intro k hpk
        simp [genesisC] at hpk
    | step hreach htx ih => exact tx_preserves_pio htx ih
  · intro who id dep s s1 h
    unfold abandon at h
    rcases ho : ensure_owner id who s with _ | e
    · rw [ho] at h
      dsimp only at h
      have h2 := congrArg Prod.snd h
      dsimp only at h2
      rw [← h2]
      constructor <;> simp [deposit_event, upd]
    · rw [ho] at h
      simp at h

/-- Witness for `price_entry_needs_owner`: the reachable state `c3s3` (kitty
1 created, adopted by 1, priced at 200) satisfies the invariant at id 1, and
abandoning kitty 1 there clears both entries. -/
theorem price_entry_needs_owner_witness :
    (c3s3.kittiesOwner 1).isSome = true ∧
    (abandon 1 1 100 c3s3).2.kittiesOwner 1 = none ∧
    (abandon 1 1 100 c3s3).2.kittiesPrice 1 = none :=
  ⟨price_entry_needs_owner.1 100 c3s3
      (Reach.step (Reach.step (Reach.step (Reach.genesis (fun _ => 1000))
        (Tx.create 1 dna0 0 g1000))
        (Tx.adopt 1 1 c3s1))
        (Tx.set_price 1 1 200 c3s2))
      1 rfl,
   (price_entry_needs_owner.2 1 1 100 c3s3 (abandon 1 1 100 c3s3).2 rfl).1,
   (price_entry_needs_owner.2 1 1 100 c3s3 (abandon 1 1 100 c3s3).2 rfl).2⟩

end Kitties
